import Mathlib

/-!
Verification of the belote-live core game engine (backend/src/game/gameState.ts)
and its WebSocket session layer (backend/src/realtime.ts) against the
natural-language specification.

The TypeScript source is shallowly embedded: pure functions become Lean
functions, the in-place mutation of `playCard` becomes a state-returning
function, thrown exceptions become `Except.error`, `string | null`
verdicts become `Option String`, and the `Math.random` shuffle becomes an
explicit `shuffle` function parameter.
-/

namespace BeloteLive

/-- The four suits of the 32-card deck (types.ts `Suit`). -/
inductive Suit where
  | clubs
  | diamonds
  | hearts
  | spades
deriving DecidableEq

/-- The eight ranks of the 32-card deck (types.ts `Rank`). -/
inductive Rank where
  | seven
  | eight
  | nine
  | ten
  | jack
  | queen
  | king
  | ace
deriving DecidableEq

/-- A card is a suit together with a rank (types.ts `Card`). -/
structure Card where
  suit : Suit
  rank : Rank
deriving DecidableEq

/-- Player identifier 0..3 (types.ts `PlayerId`). Addition in `Fin 4`
is exactly the `(p + 1) % 4` arithmetic of the source. -/
abbrev PlayerId := Fin 4

/-- A hand is an ordered list of cards (types.ts `Hand`). -/
abbrev Hand := List Card

/-- The phases of a deal (gameState.ts `GamePhase`). -/
inductive GamePhase where
  | WaitingForPlayers
  | ChoosingTrumpFirstRound
  | ChoosingTrumpSecondRound
  | PlayingTricks
  | Finished
deriving DecidableEq

/-- One (player, card) entry of a trick (gameState.ts `TrickCard`). -/
structure TrickCard where
  player : PlayerId
  card : Card
deriving DecidableEq

/-- A trick: its played cards in order, its leader, and its winner once
complete (gameState.ts `Trick`). -/
structure Trick where
  cards : List TrickCard
  leader : PlayerId
  winner : Option PlayerId
deriving DecidableEq

/-- The four hands, one per seat (the `Record<PlayerId, Hand>` of the
source). -/
structure Hands where
  h0 : List Card
  h1 : List Card
  h2 : List Card
  h3 : List Card
deriving DecidableEq

/-- Read the hand of a player (`hands[pid]`). -/
def Hands.get (hs : Hands) (p : PlayerId) : List Card :=
  match p with
  | ⟨0, _⟩ => hs.h0
  | ⟨1, _⟩ => hs.h1
  | ⟨2, _⟩ => hs.h2
  | ⟨3, _⟩ => hs.h3
  | ⟨n + 4, h⟩ => absurd h (by omega)

/-- Replace the hand of a player (`hands[pid] = ...`). -/
def Hands.set (hs : Hands) (p : PlayerId) (l : List Card) : Hands :=
  match p with
  | ⟨0, _⟩ => { hs with h0 := l }
  | ⟨1, _⟩ => { hs with h1 := l }
  | ⟨2, _⟩ => { hs with h2 := l }
  | ⟨3, _⟩ => { hs with h3 := l }
  | ⟨n + 4, h⟩ => absurd h (by omega)

/-- Per-deal team scores (gameState.ts `GameState.scores`). -/
structure Scores where
  team0 : Nat
  team1 : Nat
deriving DecidableEq

/-- The full per-deal state (gameState.ts `GameState`). -/
structure GameState where
  phase : GamePhase
  dealer : PlayerId
  currentPlayer : PlayerId
  deck : List Card
  hands : Hands
  turnedCard : Option Card
  proposedTrump : Option Suit
  trumpSuit : Option Suit
  trumpChooser : Option PlayerId
  biddingPlayer : Option PlayerId
  passesInCurrentRound : Nat
  trick : Option Trick
  scores : Scores
deriving DecidableEq

/-- Embedding of `ALL_SUITS` of gameState.ts. -/
def ALL_SUITS : List Suit :=
  [Suit.clubs, Suit.diamonds, Suit.hearts, Suit.spades]

/-- Embedding of `ALL_RANKS` of gameState.ts (deal order). -/
def ALL_RANKS : List Rank :=
  [Rank.seven, Rank.eight, Rank.nine, Rank.jack,
   Rank.queen, Rank.king, Rank.ten, Rank.ace]

/-- Embedding of `createDeck32` of gameState.ts: all 32 suit-by-rank pairs in a fixed
order. -/
def createDeck32 : List Card :=
  (ALL_SUITS.map (fun s => ALL_RANKS.map (fun r => Card.mk s r))).flatten

/-- Embedding of `NON_TRUMP_ORDER` of gameState.ts: non-trump strength order, weakest
first (7 8 9 J Q K 10 A). -/
def NON_TRUMP_ORDER : List Rank :=
  [Rank.seven, Rank.eight, Rank.nine, Rank.jack,
   Rank.queen, Rank.king, Rank.ten, Rank.ace]

/-- Embedding of `TRUMP_ORDER` of gameState.ts: trump strength order, weakest first
(7 8 Q K 10 A 9 J). -/
def TRUMP_ORDER : List Rank :=
  [Rank.seven, Rank.eight, Rank.queen, Rank.king,
   Rank.ten, Rank.ace, Rank.nine, Rank.jack]

/-- Embedding of `NON_TRUMP_POINTS` of gameState.ts. -/
def NON_TRUMP_POINTS : Rank → Nat
  | Rank.seven => 0
  | Rank.eight => 0
  | Rank.nine => 0
  | Rank.jack => 2
  | Rank.queen => 3
  | Rank.king => 4
  | Rank.ten => 10
  | Rank.ace => 11

/-- Embedding of `TRUMP_POINTS` of gameState.ts. -/
def TRUMP_POINTS : Rank → Nat
  | Rank.seven => 0
  | Rank.eight => 0
  | Rank.nine => 14
  | Rank.jack => 20
  | Rank.queen => 3
  | Rank.king => 4
  | Rank.ten => 10
  | Rank.ace => 11

/-- Index of a rank in an order list; the source uses `Array.indexOf`,
which never misses because both order tables list all eight ranks. -/
def orderIndex (r : Rank) : List Rank → Nat
  | [] => 0
  | x :: xs => if x = r then 0 else orderIndex r xs + 1

/-- Embedding of `rankStrength` of gameState.ts. -/
def rankStrength (r : Rank) (trump : Bool) : Nat :=
  orderIndex r (if trump then TRUMP_ORDER else NON_TRUMP_ORDER)

/-- Embedding of `isTrump` of gameState.ts: a card is trump when a trump suit is
defined and the card has that suit. -/
def isTrump (card : Card) (trumpSuit : Option Suit) : Bool :=
  match trumpSuit with
  | none => false
  | some t => card.suit = t

/-- Embedding of `cardPoints` of gameState.ts. -/
def cardPoints (card : Card) (trumpSuit : Option Suit) : Nat :=
  if isTrump card trumpSuit then TRUMP_POINTS card.rank
  else NON_TRUMP_POINTS card.rank

/-- Point total of a list of trick cards (the reduce of `trickPoints`). -/
def trickCardsPoints (l : List TrickCard) (trumpSuit : Option Suit) : Nat :=
  (l.map (fun tc => cardPoints tc.card trumpSuit)).sum

/-- Embedding of `trickPoints` of gameState.ts. -/
def trickPoints (trick : Trick) (trumpSuit : Option Suit) : Nat :=
  trickCardsPoints trick.cards trumpSuit

/-- Embedding of `isTeam0` (local arrow function of validatePlay / team assignment of
playCard): players 0 and 2 form team0. -/
def isTeam0 (p : PlayerId) : Bool :=
  p = (0 : PlayerId) ∨ p = (2 : PlayerId)

/-- Embedding of `sameTeam` (local arrow function of validatePlay). -/
def sameTeam (a b : PlayerId) : Bool :=
  (isTeam0 a && isTeam0 b) || (!isTeam0 a && !isTeam0 b)

/-- One iteration of the winner loop of `computeTrickWinner`: given the
current winning entry and a challenger, return the new winning entry. -/
def challengeStep (trumpSuit : Option Suit) (leadSuit : Suit)
    (winning challenger : TrickCard) : TrickCard :=
  let winningIsTrump := isTrump winning.card trumpSuit
  let challengerIsTrump := isTrump challenger.card trumpSuit
  if winningIsTrump && !challengerIsTrump then
    winning
  else if !winningIsTrump && challengerIsTrump then
    challenger
  else
    let winningFollowsLead := winning.card.suit = leadSuit
    let challengerFollowsLead := challenger.card.suit = leadSuit
    if ¬winningFollowsLead ∧ challengerFollowsLead then
      challenger
    else if winningFollowsLead ∧ ¬challengerFollowsLead then
      winning
    else
      let sameTrumpFlag := isTrump winning.card trumpSuit
      if rankStrength challenger.card.rank sameTrumpFlag >
          rankStrength winning.card.rank sameTrumpFlag then
        challenger
      else
        winning

/-- The body of `computeTrickWinner` on a non-empty list of plays:
fold the challenge loop over the later plays, starting from the first. -/
def computeTrickWinnerCore (trumpSuit : Option Suit)
    (first : TrickCard) (rest : List TrickCard) : PlayerId :=
  (rest.foldl (challengeStep trumpSuit first.card.suit) first).player

/-- Embedding of `computeTrickWinner` of gameState.ts. The source throws on an empty
trick; the embedding returns `none` there. -/
def computeTrickWinner (trick : Trick) (trumpSuit : Option Suit) :
    Option PlayerId :=
  match trick.cards with
  | [] => none
  | first :: rest => some (computeTrickWinnerCore trumpSuit first rest)

/-- Embedding of `startNewGame` of gameState.ts: shuffle a fresh 32-card deck, deal
5 cards to each player, turn the next card up, enter the first bidding
round with the player after the dealer speaking first. The
`Math.random` Fisher-Yates shuffle is passed in as a function. -/
def startNewGame (shuffle : List Card → List Card) (dealer : PlayerId) :
    GameState :=
  let deck := shuffle createDeck32
  let hand0 := deck.take 5
  let deck := deck.drop 5
  let hand1 := deck.take 5
  let deck := deck.drop 5
  let hand2 := deck.take 5
  let deck := deck.drop 5
  let hand3 := deck.take 5
  let deck := deck.drop 5
  let turnedCard := deck.head?
  let deck := deck.drop 1
  let proposedTrump := turnedCard.map (fun c => c.suit)
  let firstToSpeak : PlayerId := dealer + 1
  { phase := GamePhase.ChoosingTrumpFirstRound
    dealer := dealer
    currentPlayer := firstToSpeak
    deck := deck
    hands := ⟨hand0, hand1, hand2, hand3⟩
    turnedCard := turnedCard
    proposedTrump := proposedTrump
    trumpSuit := none
    trumpChooser := none
    biddingPlayer := some firstToSpeak
    passesInCurrentRound := 0
    trick := none
    scores := ⟨0, 0⟩ }

/-- Embedding of `ChooseTrumpPayload` of gameState.ts. -/
inductive ChooseTrumpPayload where
  | take (suit : Option Suit)
  | pass
deriving DecidableEq

/-- The `while (hands[pid].length < 8 && deck.length > 0)` loop of
`dealSecondPass`: push cards from the front of the deck until the hand
has 8 cards or the deck runs out. -/
def topUp (hand : List Card) : List Card → List Card × List Card
  | [] => (hand, [])
  | d :: rest =>
    if hand.length < 8 then topUp (hand ++ [d]) rest
    else (hand, d :: rest)

/-- Embedding of `dealSecondPass` of gameState.ts: give the turned card to the trump
chooser, then top every hand up to 8 cards, consuming the deck in
player order 0,1,2,3. -/
def dealSecondPass (state : GameState) : GameState :=
  let hands0 :=
    match state.turnedCard, state.trumpChooser with
    | some c, some chooser =>
      state.hands.set chooser (state.hands.get chooser ++ [c])
    | _, _ => state.hands
  let r0 := topUp (hands0.get 0) state.deck
  let r1 := topUp (hands0.get 1) r0.2
  let r2 := topUp (hands0.get 2) r1.2
  let r3 := topUp (hands0.get 3) r2.2
  { state with
    deck := r3.2
    hands := ⟨r0.1, r1.1, r2.1, r3.1⟩
    turnedCard := none }

/-- Embedding of `chooseTrump` of gameState.ts: handle a take or a pass from a
bidding player, returning a new state (the rejection paths return the
input state unchanged). -/
def chooseTrump (shuffle : List Card → List Card) (state : GameState)
    (player : PlayerId) (payload : ChooseTrumpPayload) : GameState :=
  if state.phase ≠ GamePhase.ChoosingTrumpFirstRound ∧
      state.phase ≠ GamePhase.ChoosingTrumpSecondRound then
    state
  else if state.biddingPlayer ≠ some player then
    state
  else
    match payload with
    | ChooseTrumpPayload.take payloadSuit =>
      let trumpSuitChosen : Option Suit :=
        if state.phase = GamePhase.ChoosingTrumpFirstRound then
          state.proposedTrump
        else
          match payloadSuit with
          | none => none
          | some u =>
            if state.proposedTrump = some u then none else some u
      match trumpSuitChosen with
      | none => state
      | some trumpSuit =>
        let nextState : GameState :=
          { state with
            trumpSuit := some trumpSuit
            trumpChooser := some player
            biddingPlayer := none
            passesInCurrentRound := 0 }
        let nextState := dealSecondPass nextState
        { nextState with
          phase := GamePhase.PlayingTricks
          currentPlayer := player
          turnedCard := none
          proposedTrump := none }
    | ChooseTrumpPayload.pass =>
      let passes := state.passesInCurrentRound + 1
      if state.phase = GamePhase.ChoosingTrumpFirstRound then
        if passes ≥ 4 then
          { state with
            phase := GamePhase.ChoosingTrumpSecondRound
            biddingPlayer := some (state.dealer + 1)
            passesInCurrentRound := 0 }
        else
          { state with
            biddingPlayer := some (player + 1)
            passesInCurrentRound := passes }
      else
        if passes ≥ 4 then
          startNewGame shuffle state.dealer
        else
          { state with
            biddingPlayer := some (player + 1)
            passesInCurrentRound := passes }

/-- The `reduce` of the source that selects the trick card holding the
strongest trump: fold over the tail with the head as initial best. -/
def reduceHighestTrump (best : TrickCard) : List TrickCard → TrickCard
  | [] => best
  | tc :: rest =>
    reduceHighestTrump
      (if rankStrength tc.card.rank true > rankStrength best.card.rank true
       then tc else best) rest

/-- Embedding of `validatePlay` of gameState.ts: `none` means the play is legal, and
`some msg` carries the rejection message of the source. The second
round-trip check of the source, `hand.some(c => c.suit === card.suit &&
c.rank === card.rank)`, is membership of the card in the hand. -/
def validatePlay (state : GameState) (player : PlayerId) (card : Card) :
    Option String :=
  if state.phase ≠ GamePhase.PlayingTricks then
    some "On ne peut jouer une carte que pendant la phase des plis."
  else
    let hand := state.hands.get player
    if card ∉ hand then
      some "Cette carte n\x27est pas dans votre main."
    else
      match state.trick with
      | none => none
      | some trick =>
        match trick.cards with
        | [] => none
        | first :: rest =>
          if (first :: rest).length = 4 then none
          else
            let leadSuit := first.card.suit
            let hasLeadSuit := hand.any (fun c => c.suit = leadSuit)
            match state.trumpSuit with
            | none =>
              if hasLeadSuit ∧ card.suit ≠ leadSuit then
                some "Vous devez fournir à la couleur."
              else none
            | some trumpSuit =>
              let hasTrump := hand.any (fun c => c.suit = trumpSuit)
              if card.suit = leadSuit then
                -- case 1: the player follows the lead suit
                if leadSuit ≠ trumpSuit then none
                else
                  match (first :: rest).filter
                      (fun tc => tc.card.suit = trumpSuit) with
                  | [] => none
                  | b :: tl =>
                    let highestTrumpInTrick := reduceHighestTrump b tl
                    let currentWinner :=
                      computeTrickWinnerCore (some trumpSuit) first rest
                    if sameTeam currentWinner player then none
                    else
                      let highestStrength :=
                        rankStrength highestTrumpInTrick.card.rank true
                      let canOvertrump := hand.any (fun c =>
                        c.suit = trumpSuit ∧
                        rankStrength c.rank true > highestStrength)
                      let myStrength := rankStrength card.rank true
                      if canOvertrump ∧ myStrength ≤ highestStrength then
                        some "Vous devez surcouper à l\x27atout si possible."
                      else none
              else if hasLeadSuit then
                -- case 2: cannot-follow checks
                some "Vous devez fournir à la couleur."
              else if ¬hasTrump then none
              else
                let currentWinner :=
                  computeTrickWinnerCore (some trumpSuit) first rest
                let winnerIsPartner := sameTeam currentWinner player
                match (first :: rest).filter
                    (fun tc => tc.card.suit = trumpSuit) with
                | [] =>
                  -- case 2.a: no trump yet in the trick
                  if winnerIsPartner then none
                  else if card.suit ≠ trumpSuit then
                    some "Vous devez couper à l\x27atout."
                  else none
                | b :: tl =>
                  -- case 2.b: at least one trump already played
                  let highestTrumpInTrick := reduceHighestTrump b tl
                  let highestStrength :=
                    rankStrength highestTrumpInTrick.card.rank true
                  if sameTeam highestTrumpInTrick.player player then none
                  else
                    let canOvertrump := hand.any (fun c =>
                      c.suit = trumpSuit ∧
                      rankStrength c.rank true > highestStrength)
                    if canOvertrump then
                      if card.suit ≠ trumpSuit then
                        some "Vous devez surcouper à l\x27atout."
                      else if rankStrength card.rank true ≤ highestStrength then
                        some "Vous devez surcouper à l\x27atout avec un atout plus fort."
                      else none
                    else if card.suit ≠ trumpSuit then
                      some "Vous devez couper à l\x27atout si vous ne pouvez pas fournir."
                    else none

/-- The check `hands[pid].length === 0` for every player (the `allHandsEmpty`
check of playCard). -/
def allHandsEmpty (hs : Hands) : Bool :=
  hs.h0.length = 0 ∧ hs.h1.length = 0 ∧ hs.h2.length = 0 ∧ hs.h3.length = 0

/-- The update `scores[winnerTeam] += points` of playCard. -/
def addScore (sc : Scores) (winner : PlayerId) (points : Nat) : Scores :=
  if isTeam0 winner then { sc with team0 := sc.team0 + points }
  else { sc with team1 := sc.team1 + points }

/-- Embedding of `playCard` of gameState.ts. The source mutates the state in place
and throws on its two guard failures; the embedding returns the new
state in `Except`, with `Except.error` for each `throw`. -/
def playCard (state : GameState) (player : PlayerId) (card : Card) :
    Except String GameState :=
  if state.phase ≠ GamePhase.PlayingTricks then
    Except.error "On ne peut jouer une carte que pendant la phase des plis."
  else
    let hand := state.hands.get player
    if card ∉ hand then
      Except.error "Cette carte n\x27est pas dans la main du joueur."
    else
      -- `findIndex` + `splice(index, 1)` removes the first card equal
      -- to the requested one.
      let newHand := hand.erase card
      let trick0 : Trick :=
        match state.trick with
        | none => { cards := [], leader := player, winner := none }
        | some t =>
          if t.cards.length = 4 then
            { cards := [], leader := player, winner := none }
          else t
      let trick1 : Trick := { trick0 with cards := trick0.cards ++ [⟨player, card⟩] }
      let state1 :=
        { state with
          hands := state.hands.set player newHand
          trick := some trick1 }
      if trick1.cards.length < 4 then
        Except.ok { state1 with currentPlayer := player + 1 }
      else
        match computeTrickWinner trick1 state.trumpSuit with
        | none =>
          Except.error "Impossible de déterminer un gagnant sur un pli vide"
        | some winner =>
          let points := trickPoints trick1 state.trumpSuit
          let state2 :=
            { state1 with
              trick := some { trick1 with winner := some winner }
              currentPlayer := winner
              scores := addScore state1.scores winner points }
          if allHandsEmpty state2.hands then
            Except.ok
              { state2 with
                scores := addScore state2.scores winner 10
                phase := GamePhase.Finished }
          else
            Except.ok state2

/-- Run a list of (player, card) plays through `playCard`, stopping at
the first rejection. -/
def playList (state : GameState) :
    List (PlayerId × Card) → Except String GameState
  | [] => Except.ok state
  | (p, c) :: rest =>
    match playCard state p c with
    | Except.error e => Except.error e
    | Except.ok state' => playList state' rest

/-- The outcome of the inbound message-type `switch` of
`setupWebSocketServer` (realtime.ts): which handler a parsed envelope
is dispatched to, or the unknown-type error of the `default` case. -/
inductive Dispatch where
  | joinRoom
  | startGame
  | playCard
  | chooseTrump
  | unknownType
deriving DecidableEq

/-- The message-type `switch` of `setupWebSocketServer`: the four
recognized inbound types, everything else falling to the `default`
branch that answers `"Type de message inconnu."`. -/
def dispatchMessageType (t : String) : Dispatch :=
  if t = "join_room" then Dispatch.joinRoom
  else if t = "start_game" then Dispatch.startGame
  else if t = "play_card" then Dispatch.playCard
  else if t = "choose_trump" then Dispatch.chooseTrump
  else Dispatch.unknownType

/-- Per-connection session data consulted by the start-game handler
(realtime.ts `ClientInfo`, minus the raw socket). -/
structure ClientInfo where
  id : String
  nickname : String
  roomCode : Option String
  seat : Option PlayerId
deriving DecidableEq

/-- A room as the start-game handler sees it (realtime.ts `Room`, with
the client set as a list of ids). -/
structure Room where
  code : String
  clients : List String
  seats : List (Option String)
  gameState : Option GameState
deriving DecidableEq

/-- Embedding of `handleStartGameMessage` of realtime.ts: reject when the client has
no room, the room is not found, or the room does not hold exactly 4
clients; otherwise install a fresh deal with dealer seat 0 (the source
has no check on an existing `gameState` — it is overwritten). Errors
are the `error` payloads sent back to the sender; on error the room is
untouched. -/
def handleStartGameMessage (shuffle : List Card → List Card)
    (client : ClientInfo) (findRoom : String → Option Room) :
    Except String Room :=
  match client.roomCode with
  | none => Except.error "Vous n\x27êtes pas dans une room."
  | some roomCode =>
    match findRoom roomCode with
    | none => Except.error "Room introuvable côté serveur."
    | some room =>
      if room.clients.length ≠ 4 then
        Except.error "Il faut 4 joueurs pour lancer la partie."
      else
        Except.ok { room with gameState := some (startNewGame shuffle 0) }

/-! ### Verification layer: point conservation through a deal -/

/-- Sum of the two team scores of a state. -/
def scoresSum (s : GameState) : Nat := s.scores.team0 + s.scores.team1

/-- Card points held in one hand under a trump suit. -/
def handPoints (l : List Card) (t : Option Suit) : Nat :=
  (l.map (fun c => cardPoints c t)).sum

/-- Card points held in the four hands. -/
def handsPoints (hs : Hands) (t : Option Suit) : Nat :=
  handPoints hs.h0 t + handPoints hs.h1 t +
    handPoints hs.h2 t + handPoints hs.h3 t

/-- Points sitting in the current trick that have not been credited to a
team yet: a 4-card trick has already been scored by `playCard`. -/
def unscoredTrickPoints (s : GameState) : Nat :=
  match s.trick with
  | none => 0
  | some tr => if tr.cards.length = 4 then 0 else trickPoints tr s.trumpSuit

/-- The conserved quantity of a deal: credited points, points still in
hands, points in the pending trick, and the 10-point last-trick bonus
still to come while the deal is in progress. -/
def pot (s : GameState) : Nat :=
  scoresSum s + handsPoints s.hands s.trumpSuit + unscoredTrickPoints s +
    (if s.phase = GamePhase.PlayingTricks then 10 else 0)

theorem Hands.get_zero (hs : Hands) : hs.get 0 = hs.h0 := rfl

theorem Hands.get_one (hs : Hands) : hs.get 1 = hs.h1 := rfl

theorem Hands.get_two (hs : Hands) : hs.get 2 = hs.h2 := rfl

theorem Hands.get_three (hs : Hands) : hs.get 3 = hs.h3 := rfl

theorem Hands.set_zero (hs : Hands) (l : List Card) :
    hs.set 0 l = { hs with h0 := l } := rfl

theorem Hands.set_one (hs : Hands) (l : List Card) :
    hs.set 1 l = { hs with h1 := l } := rfl

theorem Hands.set_two (hs : Hands) (l : List Card) :
    hs.set 2 l = { hs with h2 := l } := rfl

theorem Hands.set_three (hs : Hands) (l : List Card) :
    hs.set 3 l = { hs with h3 := l } := rfl

/-- Removing a held card moves its points out of the hand. -/
theorem handPoints_erase {c : Card} {l : List Card} (t : Option Suit)
    (hc : c ∈ l) :
    handPoints l t = cardPoints c t + handPoints (l.erase c) t := by
  have hperm := List.perm_cons_erase hc
  have := (hperm.map (fun c => cardPoints c t)).sum_eq
  simpa [handPoints] using this

/-- Replacing one hand exchanges its points in the total. -/
theorem handsPoints_set (hs : Hands) (p : PlayerId) (l : List Card)
    (t : Option Suit) :
    handsPoints (hs.set p l) t + handPoints (hs.get p) t =
      handsPoints hs t + handPoints l t := by
  fin_cases p <;> simp only [handsPoints, Hands.get, Hands.set] <;> omega

/-- The helper `addScore` adds its points to the sum of the two team scores. -/
theorem addScore_sum (sc : Scores) (w : PlayerId) (n : Nat) :
    (addScore sc w n).team0 + (addScore sc w n).team1 =
      sc.team0 + sc.team1 + n := by
  unfold addScore
  split <;> simp <;> omega

theorem trickCardsPoints_append (l1 l2 : List TrickCard) (t : Option Suit) :
    trickCardsPoints (l1 ++ l2) t =
      trickCardsPoints l1 t + trickCardsPoints l2 t := by
  simp [trickCardsPoints]

theorem trickCardsPoints_singleton (tc : TrickCard) (t : Option Suit) :
    trickCardsPoints [tc] t = cardPoints tc.card t := by
  simp [trickCardsPoints]

/-- When every hand is empty no points remain in the hands. -/
theorem allHandsEmpty_handsPoints {hs : Hands} (t : Option Suit)
    (h : allHandsEmpty hs = true) : handsPoints hs t = 0 := by
  unfold allHandsEmpty at h
  simp only [decide_eq_true_eq] at h
  obtain ⟨h0, h1, h2, h3⟩ := h
  rw [List.length_eq_zero] at h0 h1 h2 h3
  simp [handsPoints, handPoints, h0, h1, h2, h3]

/-- A trick holding at least one card always has a computable winner
(the throwing branch of `computeTrickWinner` is unreachable from
`playCard`). -/
theorem computeTrickWinner_append (l : List TrickCard) (tc : TrickCard)
    (leader : PlayerId) (w : Option PlayerId) (ts : Option Suit) :
    ∃ wv, computeTrickWinner ⟨l ++ [tc], leader, w⟩ ts = some wv := by
  cases l <;> simp [computeTrickWinner]

/-- The 32-card deck carries 152 points whenever a trump suit is
defined: 62 for the trump suit and 30 for each of the other three. -/
theorem createDeck32_points (t : Suit) :
    handPoints createDeck32 (some t) = 152 := by
  cases t <;> decide

def trickOk (s : GameState) : Prop :=
  ∀ t, s.trick = some t → t.cards.length ≤ 4

set_option maxHeartbeats 1000000

theorem playCard_step {s : GameState} {p : PlayerId} {c : Card}
    {s' : GameState} (hwf : trickOk s)
    (h : playCard s p c = Except.ok s') :
    pot s' = pot s ∧ trickOk s' ∧
      (s'.phase = GamePhase.Finished →
        s'.scores.team0 + s'.scores.team1 = pot s') := by
  rw [playCard] at h
  split at h
  · exact absurd h (by simp)
  next hph =>
  rw [not_not] at hph
  split at h
  next htr =>
    -- s.trick = none: a fresh one-card trick is started
    simp only [] at h
    split at h
    · exact absurd h (by simp)
    next hmem =>
    rw [not_not] at hmem
    have hset := handsPoints_set s.hands p ((s.hands.get p).erase c) s.trumpSuit
    have herase := handPoints_erase s.trumpSuit hmem
    split at h
    next hlen =>
      rw [Except.ok.injEq] at h
      subst h
      refine ⟨?_, ?_, ?_⟩
      · simp [pot, scoresSum, unscoredTrickPoints, trickPoints, trickCardsPoints, hph, htr]
        omega
      · intro t ht
        simp at ht
        subst ht
        simp
      · intro hfin
        simp [hph] at hfin
    next hlen =>
      simp at hlen
  next t htr =>
    -- s.trick = some t
    simp only [] at h
    have htlen : t.cards.length ≤ 4 := hwf t htr
    split at h
    · exact absurd h (by simp)
    next hmem =>
    rw [not_not] at hmem
    have hset := handsPoints_set s.hands p ((s.hands.get p).erase c) s.trumpSuit
    have herase := handPoints_erase s.trumpSuit hmem
    split at h
    next h4 =>
      -- t already complete (4 cards): reset to a fresh trick
      split at h
      next hlen =>
        rw [Except.ok.injEq] at h
        subst h
        refine ⟨?_, ?_, ?_⟩
        · simp [pot, scoresSum, unscoredTrickPoints, trickPoints, trickCardsPoints, hph, htr, h4]
          omega
        · intro u hu
          simp at hu
          subst hu
          simp
        · intro hfin
          simp [hph] at hfin
      next hlen =>
        simp at hlen
    next h4 =>
      -- t incomplete: append to it
      have ht3 : t.cards.length ≤ 3 := by omega
      split at h
      next hlen =>
        -- still fewer than 4 cards
        simp at hlen
        rw [Except.ok.injEq] at h
        subst h
        refine ⟨?_, ?_, ?_⟩
        · have hne : t.cards.length ≠ 3 := by omega
          simp [pot, scoresSum, unscoredTrickPoints, trickPoints, hph, htr,
            trickCardsPoints_append, trickCardsPoints_singleton, h4, hne]
          omega
        · intro u hu
          simp at hu
          subst hu
          simp
          omega
        · intro hfin
          simp [hph] at hfin
      next hlen =>
        -- the trick is completed and scored
        simp at hlen
        have hlen4 : (t.cards ++ [TrickCard.mk p c]).length = 4 := by
          simp; omega
        split at h
        · exact absurd h (by simp)
        next winner hwin =>
        split at h
        next hempty =>
          -- final trick of the deal
          rw [Except.ok.injEq] at h
          subst h
          have hzero := @allHandsEmpty_handsPoints (s.hands.set p ((s.hands.get p).erase c)) s.trumpSuit (by simpa using hempty)
          refine ⟨?_, ?_, ?_⟩
          · simp [pot, scoresSum, unscoredTrickPoints, trickPoints, hph, htr,
              trickCardsPoints_append, trickCardsPoints_singleton, h4,
              addScore_sum, hlen4, hzero]
            omega
          · intro u hu
            simp at hu
            subst hu
            simp [hlen4]
          · intro hfin
            simp [pot, scoresSum, unscoredTrickPoints, trickPoints, hph,
              trickCardsPoints_append, trickCardsPoints_singleton,
              addScore_sum, hlen4, hzero]
        next hempty =>
          rw [Except.ok.injEq] at h
          subst h
          refine ⟨?_, ?_, ?_⟩
          · simp [pot, scoresSum, unscoredTrickPoints, trickPoints, hph, htr,
              trickCardsPoints_append, trickCardsPoints_singleton, h4,
              addScore_sum, hlen4]
            omega
          · intro u hu
            simp at hu
            subst hu
            simp [hlen4]
          · intro hfin
            simp [hph] at hfin

/-- The invariant carried through a 162-point deal: 162 points are
distributed over scores, hands, the pending trick and the last-trick
bonus; the trick is well-sized; and once the deal is finished the whole
162 points sit in the scores. -/
def dealInv (s : GameState) : Prop :=
  pot s = 162 ∧ trickOk s ∧
    (s.phase = GamePhase.Finished →
      s.scores.team0 + s.scores.team1 = 162)

/-- Every successful `playCard` preserves the deal invariant. -/
theorem playCard_dealInv {s s' : GameState} {p : PlayerId} {c : Card}
    (hinv : dealInv s) (h : playCard s p c = Except.ok s') :
    dealInv s' := by
  obtain ⟨hpot, hwf, _⟩ := hinv
  obtain ⟨hstep, hwf', hfin'⟩ := playCard_step hwf h
  refine ⟨by rw [hstep, hpot], hwf', ?_⟩
  intro hf
  rw [hfin' hf, hstep, hpot]

/-- Running any list of plays through `playCard` preserves the deal
invariant. -/
theorem playList_dealInv :
    ∀ (plays : List (PlayerId × Card)) {s s' : GameState},
      dealInv s → playList s plays = Except.ok s' → dealInv s' := by
  intro plays
  induction plays with
  | nil =>
    intro s s' hinv h
    rw [playList] at h
    rw [Except.ok.injEq] at h
    rwa [← h]
  | cons pc rest ih =>
    obtain ⟨p, c⟩ := pc
    intro s s' hinv h
    rw [playList] at h
    cases hstep : playCard s p c with
    | error e => rw [hstep] at h; exact absurd h (by simp)
    | ok s1 =>
      rw [hstep] at h
      exact ih (playCard_dealInv hinv hstep) h

/-- Card points distribute over hand concatenation. -/
theorem handPoints_append (l1 l2 : List Card) (t : Option Suit) :
    handPoints (l1 ++ l2) t = handPoints l1 t + handPoints l2 t := by
  simp [handPoints]

/-! ### Claim theorems -/

/-- Claim C1: every deal played to completion through `playCard` —
starting from hands that together hold all 32 cards, a defined
trump suit, zero team scores and no pending trick — ends with
`scores.team0 + scores.team1 = 162`: the 152 card points of the two
point tables plus the 10-point last-trick bonus, independent of who
wins which trick. -/
theorem claim_C1 (s : GameState) (plays : List (PlayerId × Card))
    (s' : GameState)
    (hphase : s.phase = GamePhase.PlayingTricks)
    (htrump : s.trumpSuit.isSome)
    (hscores : s.scores = ⟨0, 0⟩)
    (htrick : s.trick = none)
    (hcards : (s.hands.h0 ++ s.hands.h1 ++ s.hands.h2 ++ s.hands.h3).Perm
      createDeck32)
    (hrun : playList s plays = Except.ok s')
    (hfin : s'.phase = GamePhase.Finished) :
    s'.scores.team0 + s'.scores.team1 = 162 := by
  have hinv : dealInv s := by
    obtain ⟨t, ht⟩ := Option.isSome_iff_exists.mp htrump
    have hsum : handPoints
        (s.hands.h0 ++ s.hands.h1 ++ s.hands.h2 ++ s.hands.h3) s.trumpSuit =
        handPoints createDeck32 s.trumpSuit := by
      unfold handPoints
      exact (hcards.map (fun c => cardPoints c s.trumpSuit)).sum_eq
    rw [ht, createDeck32_points t] at hsum
    simp only [handPoints_append] at hsum
    refine ⟨?_, ?_, ?_⟩
    · simp [pot, scoresSum, unscoredTrickPoints, handsPoints, hscores, htrick,
        hphase, ht]
      omega
    · intro u hu
      rw [htrick] at hu
      exact absurd hu (by simp)
    · intro hf
      rw [hphase] at hf
      exact absurd hf (by simp)
  exact (playList_dealInv plays hinv hrun).2.2 hfin

/-- A concrete complete deal used to witness claim C1: each player
holds one full suit (consecutive 8-card chunks of the fixed deck) and
plays it out in seat order. -/
def c1Deal : GameState :=
  { phase := GamePhase.PlayingTricks
    dealer := 0
    currentPlayer := 0
    deck := []
    hands := ⟨createDeck32.take 8, (createDeck32.drop 8).take 8,
              (createDeck32.drop 16).take 8, (createDeck32.drop 24).take 8⟩
    turnedCard := none
    proposedTrump := none
    trumpSuit := some Suit.clubs
    trumpChooser := some 0
    biddingPlayer := none
    passesInCurrentRound := 0
    trick := none
    scores := ⟨0, 0⟩ }

/-- The 32 plays of the witness deal, in seat order within each trick. -/
def c1Plays : List (PlayerId × Card) :=
  (List.range 8).flatMap (fun i =>
    [((0 : PlayerId), c1Deal.hands.h0.getD i ⟨Suit.clubs, Rank.seven⟩),
     ((1 : PlayerId), c1Deal.hands.h1.getD i ⟨Suit.clubs, Rank.seven⟩),
     ((2 : PlayerId), c1Deal.hands.h2.getD i ⟨Suit.clubs, Rank.seven⟩),
     ((3 : PlayerId), c1Deal.hands.h3.getD i ⟨Suit.clubs, Rank.seven⟩)])

/-- The state the witness deal ends in. -/
def c1Final : GameState :=
  (playList c1Deal c1Plays).toOption.getD c1Deal

/-- Witness for claim C1: the concrete deal satisfies every hypothesis
and its final scores sum to 162. -/
theorem claim_C1_witness :
    c1Deal.phase = GamePhase.PlayingTricks ∧
    c1Deal.trumpSuit.isSome ∧
    c1Deal.scores = ⟨0, 0⟩ ∧
    c1Deal.trick = none ∧
    (c1Deal.hands.h0 ++ c1Deal.hands.h1 ++ c1Deal.hands.h2 ++
      c1Deal.hands.h3).Perm createDeck32 ∧
    playList c1Deal c1Plays = Except.ok c1Final ∧
    c1Final.phase = GamePhase.Finished ∧
    c1Final.scores.team0 + c1Final.scores.team1 = 162 := by
  have hperm : (c1Deal.hands.h0 ++ c1Deal.hands.h1 ++ c1Deal.hands.h2 ++
      c1Deal.hands.h3).Perm createDeck32 := by
    have heq : c1Deal.hands.h0 ++ c1Deal.hands.h1 ++ c1Deal.hands.h2 ++
        c1Deal.hands.h3 = createDeck32 := by decide
    rw [heq]
  have hrun : playList c1Deal c1Plays = Except.ok c1Final := by rfl
  have hfin : c1Final.phase = GamePhase.Finished := by decide
  exact ⟨rfl, rfl, rfl, rfl, hperm, hrun, hfin,
    claim_C1 c1Deal c1Plays c1Final rfl rfl rfl rfl hperm hrun hfin⟩

/-- Claim C5: for the concrete trick with trump ♥ and plays
(p0, 10♠), (p1, J♥), (p2, A♠), (p3, 8♥), `computeTrickWinner` returns
player 1: a trump beats any non-trump and J outranks 8 in the trump
ordering. -/
theorem claim_C5 :
    computeTrickWinner
      { cards := [⟨0, ⟨Suit.spades, Rank.ten⟩⟩, ⟨1, ⟨Suit.hearts, Rank.jack⟩⟩,
                  ⟨2, ⟨Suit.spades, Rank.ace⟩⟩, ⟨3, ⟨Suit.hearts, Rank.eight⟩⟩]
        leader := 0
        winner := none }
      (some Suit.hearts) = some 1 := by
  decide

/-- The state of spec Scenario 3: trump ♣, current trick
(p0, A♥), (p1, 7♥), (p2, 10♥), player 3 to act holding {8♣, 9♦}. -/
def c2State : GameState :=
  { phase := GamePhase.PlayingTricks
    dealer := 0
    currentPlayer := 3
    deck := []
    hands := ⟨[], [], [], [⟨Suit.clubs, Rank.eight⟩, ⟨Suit.diamonds, Rank.nine⟩]⟩
    turnedCard := none
    proposedTrump := none
    trumpSuit := some Suit.clubs
    trumpChooser := some 0
    biddingPlayer := none
    passesInCurrentRound := 0
    trick := some { cards := [⟨0, ⟨Suit.hearts, Rank.ace⟩⟩,
                              ⟨1, ⟨Suit.hearts, Rank.seven⟩⟩,
                              ⟨2, ⟨Suit.hearts, Rank.ten⟩⟩]
                    leader := 0
                    winner := none }
    scores := ⟨0, 0⟩ }

/-- Counterexample to claim C2: in the Scenario 3 state, `validatePlay`
does NOT declare 9♦ legal — the current trick winner is p0 (A♥ beats
10♥ under lead suit ♥), an opponent of p3, so p3 must trump. -/
theorem claim_C2_counterexample :
    validatePlay c2State 3 ⟨Suit.diamonds, Rank.nine⟩ ≠ none := by
  decide

/-- Claim C2 as amended: in the Scenario 3 state the play of 9♦ by
player 3 is rejected with the must-trump error (the trick is currently
won by opponent p0 with A♥, not by p3's partner), while the trump 8♣
is legal. -/
theorem claim_C2_amended :
    validatePlay c2State 3 ⟨Suit.diamonds, Rank.nine⟩ =
      some "Vous devez couper à l\x27atout." ∧
    validatePlay c2State 3 ⟨Suit.clubs, Rank.eight⟩ = none := by
  constructor <;> decide

/-- A first-round bidding state with dealer 0 in which player 2 is the
bidder, used for claims C4 and C6. -/
def c4State : GameState :=
  { phase := GamePhase.ChoosingTrumpFirstRound
    dealer := 0
    currentPlayer := 2
    deck := []
    hands := ⟨[], [], [], []⟩
    turnedCard := some ⟨Suit.hearts, Rank.ace⟩
    proposedTrump := some Suit.hearts
    trumpSuit := none
    trumpChooser := none
    biddingPlayer := some 2
    passesInCurrentRound := 0
    trick := none
    scores := ⟨0, 0⟩ }

/-- Counterexample to claim C4: when player 2 takes with dealer 0, the
take succeeds (the phase becomes PlayingTricks) but `currentPlayer`
is 2, the taker, not `(dealer + 1) % 4 = 1`. -/
theorem claim_C4_counterexample :
    (chooseTrump id c4State 2 (ChooseTrumpPayload.take none)).phase =
      GamePhase.PlayingTricks ∧
    (chooseTrump id c4State 2 (ChooseTrumpPayload.take none)).currentPlayer ≠
      c4State.dealer + 1 := by
  constructor <;> decide

/-- Claim C4 as amended: after every successful take, the phase is
PlayingTricks and `currentPlayer` is the taking player (who is also
recorded as `trumpChooser`), regardless of the dealer. -/
theorem claim_C4_amended (shuffle : List Card → List Card)
    (s : GameState) (p : PlayerId) (su : Option Suit)
    (hbid : s.biddingPlayer = some p)
    (hok : (s.phase = GamePhase.ChoosingTrumpFirstRound ∧
              s.proposedTrump.isSome) ∨
           (s.phase = GamePhase.ChoosingTrumpSecondRound ∧
              ∃ u, su = some u ∧ s.proposedTrump ≠ some u)) :
    (chooseTrump shuffle s p (ChooseTrumpPayload.take su)).phase =
      GamePhase.PlayingTricks ∧
    (chooseTrump shuffle s p (ChooseTrumpPayload.take su)).currentPlayer = p ∧
    (chooseTrump shuffle s p (ChooseTrumpPayload.take su)).trumpChooser =
      some p := by
  rcases hok with ⟨hph, htc⟩ | ⟨hph, u, hsu, hne⟩
  · obtain ⟨t, ht⟩ := Option.isSome_iff_exists.mp htc
    rw [chooseTrump.eq_def, if_neg (by simp [hph]), if_neg (by simp [hbid])]
    simp only [hph, if_pos, ht]
    simp [dealSecondPass]
  · subst hsu
    rw [chooseTrump.eq_def, if_neg (by simp [hph]), if_neg (by simp [hbid])]
    simp only [hph]
    rw [if_neg (by simp), if_neg hne]
    simp [dealSecondPass]

/-- Witness for claim C4 as amended: player 2 takes in the concrete
first-round state and becomes the current player. -/
theorem claim_C4_witness :
    c4State.biddingPlayer = some 2 ∧
    c4State.phase = GamePhase.ChoosingTrumpFirstRound ∧
    c4State.proposedTrump.isSome ∧
    (chooseTrump id c4State 2 (ChooseTrumpPayload.take none)).phase =
      GamePhase.PlayingTricks ∧
    (chooseTrump id c4State 2 (ChooseTrumpPayload.take none)).currentPlayer =
      2 ∧
    (chooseTrump id c4State 2 (ChooseTrumpPayload.take none)).trumpChooser =
      some 2 := by
  refine ⟨rfl, rfl, rfl, ?_⟩
  exact claim_C4_amended id c4State 2 none rfl (Or.inl ⟨rfl, rfl⟩)

/-- Claim C7: rejected commands never mutate the game state. Each
rejection path of `chooseTrump` — wrong phase, wrong bidding player,
second-round take with a missing suit or with the proposed suit —
returns the input state unchanged, and the pure legality oracle
`validatePlay` yields the same verdict whenever it is applied to the
same inputs. -/
theorem claim_C7 (shuffle : List Card → List Card) (s : GameState)
    (p : PlayerId) (payload : ChooseTrumpPayload) :
    ((s.phase ≠ GamePhase.ChoosingTrumpFirstRound ∧
        s.phase ≠ GamePhase.ChoosingTrumpSecondRound) →
      chooseTrump shuffle s p payload = s) ∧
    (s.biddingPlayer ≠ some p → chooseTrump shuffle s p payload = s) ∧
    (s.phase = GamePhase.ChoosingTrumpSecondRound →
      payload = ChooseTrumpPayload.take none →
      chooseTrump shuffle s p payload = s) ∧
    (∀ u, s.phase = GamePhase.ChoosingTrumpSecondRound →
      payload = ChooseTrumpPayload.take (some u) →
      s.proposedTrump = some u →
      chooseTrump shuffle s p payload = s) ∧
    (∀ (s₂ : GameState) (c : Card), s₂ = s →
      validatePlay s₂ p c = validatePlay s p c) := by
  refine ⟨?_, ?_, ?_, ?_, ?_⟩
  · intro hw
    rw [chooseTrump.eq_def, if_pos hw]
  · intro hb
    by_cases hw : s.phase ≠ GamePhase.ChoosingTrumpFirstRound ∧
        s.phase ≠ GamePhase.ChoosingTrumpSecondRound
    · rw [chooseTrump.eq_def, if_pos hw]
    · rw [chooseTrump.eq_def, if_neg hw, if_pos hb]
  · intro hph hpay
    subst hpay
    rw [chooseTrump.eq_def, if_neg (by simp [hph])]
    by_cases hb : s.biddingPlayer ≠ some p
    · rw [if_pos hb]
    · rw [if_neg hb]
      simp [hph]
  · intro u hph hpay hprop
    subst hpay
    rw [chooseTrump.eq_def, if_neg (by simp [hph])]
    by_cases hb : s.biddingPlayer ≠ some p
    · rw [if_pos hb]
    · rw [if_neg hb]
      simp [hph, hprop]
  · intro s₂ c hs
    rw [hs]

/-- Witness for claim C7: in the concrete first-round state where
player 2 is the bidder, a pass by player 0 is rejected and the state
is returned unchanged. -/
theorem claim_C7_witness :
    c4State.biddingPlayer ≠ some 0 ∧
    chooseTrump id c4State 0 ChooseTrumpPayload.pass = c4State := by
  refine ⟨by decide, ?_⟩
  exact (claim_C7 id c4State 0 ChooseTrumpPayload.pass).2.1 (by decide)

/-- Claim C10: a play that the legality oracle accepts can always be
executed — if `validatePlay` returns `none` then `playCard` does not
throw, because both of its throwing branches (wrong phase, card not in
hand) are checks `validatePlay` has already performed, and the
trick-winner computation inside `playCard` always sees a non-empty
trick. -/
theorem claim_C10 (s : GameState) (p : PlayerId) (c : Card)
    (h : validatePlay s p c = none) :
    ∃ s', playCard s p c = Except.ok s' := by
  rw [validatePlay] at h
  have hph : s.phase = GamePhase.PlayingTricks := by
    by_contra hph
    rw [if_pos hph] at h
    exact absurd h (by simp)
  rw [if_neg (not_not_intro hph)] at h
  simp only [] at h
  have hmem : c ∈ s.hands.get p := by
    by_contra hmem
    rw [if_pos hmem] at h
    exact absurd h (by simp)
  cases hres : playCard s p c with
  | ok s1 => exact ⟨s1, rfl⟩
  | error e =>
    exfalso
    rw [playCard] at hres
    split at hres
    next hph2 => exact hph2 hph
    next hph2 =>
    split at hres
    next htr =>
      simp only [] at hres
      split at hres
      next hmem2 => exact hmem2 hmem
      next =>
      split at hres
      next hlen => simp at hres
      next hlen => exact hlen (by simp)
    next t htr =>
      simp only [] at hres
      split at hres
      next hmem2 => exact hmem2 hmem
      next =>
      split at hres
      next h4 =>
        split at hres
        next hlen => simp at hres
        next hlen => exact hlen (by simp)
      next h4 =>
        split at hres
        next hlen => simp at hres
        next hlen =>
          split at hres
          next heq =>
            obtain ⟨w, hw⟩ := computeTrickWinner_append t.cards ⟨p, c⟩
              t.leader t.winner s.trumpSuit
            rw [hw] at heq
            exact absurd heq (by simp)
          next w hwin =>
            split at hres
            next => simp at hres
            next => simp at hres

/-- Witness for claim C10: the legal play 8♣ of the Scenario 3 state
goes through `playCard` without an error. -/
theorem claim_C10_witness :
    validatePlay c2State 3 ⟨Suit.clubs, Rank.eight⟩ = none ∧
    ∃ s', playCard c2State 3 ⟨Suit.clubs, Rank.eight⟩ = Except.ok s' := by
  refine ⟨by decide, ?_⟩
  exact claim_C10 c2State 3 ⟨Suit.clubs, Rank.eight⟩ (by decide)

/-- Claim C6: processing the fourth consecutive pass of a bidding
round. In the first round the state moves to the second round with
`biddingPlayer = (dealer + 1) % 4` and the pass counter reset to 0; in
the second round the engine instead produces a fresh deal
(`startNewGame` — a new shuffle) keeping the same dealer, with phase
ChoosingTrumpFirstRound and zero deal scores. -/
theorem claim_C6 (shuffle : List Card → List Card) (s : GameState)
    (p : PlayerId)
    (hbid : s.biddingPlayer = some p)
    (hpass : s.passesInCurrentRound = 3) :
    (s.phase = GamePhase.ChoosingTrumpFirstRound →
      chooseTrump shuffle s p ChooseTrumpPayload.pass =
        { s with
          phase := GamePhase.ChoosingTrumpSecondRound
          biddingPlayer := some (s.dealer + 1)
          passesInCurrentRound := 0 }) ∧
    (s.phase = GamePhase.ChoosingTrumpSecondRound →
      chooseTrump shuffle s p ChooseTrumpPayload.pass =
        startNewGame shuffle s.dealer ∧
      (startNewGame shuffle s.dealer).phase =
        GamePhase.ChoosingTrumpFirstRound ∧
      (startNewGame shuffle s.dealer).dealer = s.dealer ∧
      (startNewGame shuffle s.dealer).scores = ⟨0, 0⟩) := by
  constructor
  · intro hph
    rw [chooseTrump.eq_def, if_neg (by simp [hph]), if_neg (by simp [hbid])]
    simp [hph, hpass]
  · intro hph
    refine ⟨?_, rfl, rfl, rfl⟩
    rw [chooseTrump.eq_def, if_neg (by simp [hph]), if_neg (by simp [hbid])]
    simp [hph, hpass]

/-- The first-round bidding state of `c4State` with three passes
already recorded and player 1 speaking. -/
def c6State : GameState :=
  { c4State with biddingPlayer := some 1, passesInCurrentRound := 3 }

/-- Witness for claim C6: a fourth pass in the concrete first-round
state moves the table to the second round with the player after the
dealer speaking. -/
theorem claim_C6_witness :
    c6State.biddingPlayer = some 1 ∧
    c6State.passesInCurrentRound = 3 ∧
    c6State.phase = GamePhase.ChoosingTrumpFirstRound ∧
    chooseTrump id c6State 1 ChooseTrumpPayload.pass =
      { c6State with
        phase := GamePhase.ChoosingTrumpSecondRound
        biddingPlayer := some (c6State.dealer + 1)
        passesInCurrentRound := 0 } := by
  exact ⟨rfl, rfl, rfl, (claim_C6 id c6State 1 rfl rfl).1 rfl⟩

/-- Closed form of the `topUp` loop: with a hand of `8 - n` cards and a
deck of at least `n` cards, the hand receives the first `n` deck cards
and the deck keeps the rest. -/
theorem topUp_spec :
    ∀ (n : Nat) (hand deck : List Card), hand.length + n = 8 →
      n ≤ deck.length →
      topUp hand deck = (hand ++ deck.take n, deck.drop n) := by
  intro n
  induction n with
  | zero =>
    intro hand deck hlen hdeck
    cases deck with
    | nil => simp [topUp]
    | cons d rest =>
      rw [topUp, if_neg (by omega)]
      simp
  | succ m ih =>
    intro hand deck hlen hdeck
    cases deck with
    | nil => simp at hdeck
    | cons d rest =>
      rw [topUp, if_pos (by omega)]
      rw [ih (hand ++ [d]) rest (by simp; omega) (by simp at hdeck; omega)]
      simp

theorem dealSecondPass_take (s : GameState) (p : PlayerId) (tc : Card)
    (hturn : s.turnedCard = some tc) (hch : s.trumpChooser = some p)
    (hlens : ∀ q : PlayerId, (s.hands.get q).length = 5)
    (hdeck : s.deck.length = 11) :
    (dealSecondPass s).deck = [] ∧
    (∀ q : PlayerId, ((dealSecondPass s).hands.get q).length = 8) ∧
    ∃ g0 g1 g2 g3 : List Card,
      s.deck = g0 ++ g1 ++ g2 ++ g3 ∧
      g0.length = (if (0 : PlayerId) = p then 2 else 3) ∧
      g1.length = (if (1 : PlayerId) = p then 2 else 3) ∧
      g2.length = (if (2 : PlayerId) = p then 2 else 3) ∧
      g3.length = (if (3 : PlayerId) = p then 2 else 3) ∧
      (dealSecondPass s).hands.h0 =
        s.hands.h0 ++ (if (0 : PlayerId) = p then [tc] else []) ++ g0 ∧
      (dealSecondPass s).hands.h1 =
        s.hands.h1 ++ (if (1 : PlayerId) = p then [tc] else []) ++ g1 ∧
      (dealSecondPass s).hands.h2 =
        s.hands.h2 ++ (if (2 : PlayerId) = p then [tc] else []) ++ g2 ∧
      (dealSecondPass s).hands.h3 =
        s.hands.h3 ++ (if (3 : PlayerId) = p then [tc] else []) ++ g3 := by
  have l0 : s.hands.h0.length = 5 := hlens 0
  have l1 : s.hands.h1.length = 5 := hlens 1
  have l2 : s.hands.h2.length = 5 := hlens 2
  have l3 : s.hands.h3.length = 5 := hlens 3
  rw [dealSecondPass]
  rw [hturn, hch]
  fin_cases p
  · -- taker is player 0
    simp only [Hands.set, Hands.get]
    rw [topUp_spec 2 (s.hands.h0 ++ [tc]) s.deck
      (by simp [l0]) (by simp [hdeck])]
    simp only []
    rw [topUp_spec 3 s.hands.h1 (s.deck.drop 2)
      (by simp [l1]) (by simp [hdeck])]
    simp only []
    rw [topUp_spec 3 s.hands.h2 ((s.deck.drop 2).drop 3)
      (by simp [l2]) (by simp [hdeck])]
    simp only []
    rw [topUp_spec 3 s.hands.h3 (((s.deck.drop 2).drop 3).drop 3)
      (by simp [l3]) (by simp [hdeck])]
    simp only []
    refine ⟨?_, ?_, ?_⟩
    · apply List.eq_nil_of_length_eq_zero
      simp [hdeck]
    · intro q
      fin_cases q <;> simp [Hands.get, l0, l1, l2, l3, hdeck]
    · refine ⟨s.deck.take 2, (s.deck.drop 2).take 3,
        ((s.deck.drop 2).drop 3).take 3, (((s.deck.drop 2).drop 3).drop 3).take 3,
        ?_, ?_, ?_, ?_, ?_, ?_, ?_, ?_, ?_⟩
      · have e1 := List.take_append_drop 2 s.deck
        have e2 := List.take_append_drop 3 (s.deck.drop 2)
        have e3 := List.take_append_drop 3 ((s.deck.drop 2).drop 3)
        have e4 : (((s.deck.drop 2).drop 3).drop 3).take 3 = (((s.deck.drop 2).drop 3).drop 3) :=
          List.take_of_length_le (by simp [hdeck])
        rw [e4]
        conv_lhs => rw [← e1, ← e2, ← e3]
        simp [List.append_assoc]
      · simp [hdeck]
      · simp [hdeck]
      · simp [hdeck]
      · simp [hdeck]
      · simp [List.append_assoc]
      · simp [List.append_assoc]
      · simp [List.append_assoc]
      · simp [List.append_assoc]
  · -- taker is player 1
    simp only [Hands.set, Hands.get]
    rw [topUp_spec 3 s.hands.h0 s.deck
      (by simp [l0]) (by simp [hdeck])]
    simp only []
    rw [topUp_spec 2 (s.hands.h1 ++ [tc]) (s.deck.drop 3)
      (by simp [l1]) (by simp [hdeck])]
    simp only []
    rw [topUp_spec 3 s.hands.h2 ((s.deck.drop 3).drop 2)
      (by simp [l2]) (by simp [hdeck])]
    simp only []
    rw [topUp_spec 3 s.hands.h3 (((s.deck.drop 3).drop 2).drop 3)
      (by simp [l3]) (by simp [hdeck])]
    simp only []
    refine ⟨?_, ?_, ?_⟩
    · apply List.eq_nil_of_length_eq_zero
      simp [hdeck]
    · intro q
      fin_cases q <;> simp [Hands.get, l0, l1, l2, l3, hdeck]
    · refine ⟨s.deck.take 3, (s.deck.drop 3).take 2,
        ((s.deck.drop 3).drop 2).take 3, (((s.deck.drop 3).drop 2).drop 3).take 3,
        ?_, ?_, ?_, ?_, ?_, ?_, ?_, ?_, ?_⟩
      · have e1 := List.take_append_drop 3 s.deck
        have e2 := List.take_append_drop 2 (s.deck.drop 3)
        have e3 := List.take_append_drop 3 ((s.deck.drop 3).drop 2)
        have e4 : (((s.deck.drop 3).drop 2).drop 3).take 3 = (((s.deck.drop 3).drop 2).drop 3) :=
          List.take_of_length_le (by simp [hdeck])
        rw [e4]
        conv_lhs => rw [← e1, ← e2, ← e3]
        simp [List.append_assoc]
      · simp [hdeck]
      · simp [hdeck]
      · simp [hdeck]
      · simp [hdeck]
      · simp [List.append_assoc]
      · simp [List.append_assoc]
      · simp [List.append_assoc]
      · simp [List.append_assoc]
  · -- taker is player 2
    simp only [Hands.set, Hands.get]
    rw [topUp_spec 3 s.hands.h0 s.deck
      (by simp [l0]) (by simp [hdeck])]
    simp only []
    rw [topUp_spec 3 s.hands.h1 (s.deck.drop 3)
      (by simp [l1]) (by simp [hdeck])]
    simp only []
    rw [topUp_spec 2 (s.hands.h2 ++ [tc]) ((s.deck.drop 3).drop 3)
      (by simp [l2]) (by simp [hdeck])]
    simp only []
    rw [topUp_spec 3 s.hands.h3 (((s.deck.drop 3).drop 3).drop 2)
      (by simp [l3]) (by simp [hdeck])]
    simp only []
    refine ⟨?_, ?_, ?_⟩
    · apply List.eq_nil_of_length_eq_zero
      simp [hdeck]
    · intro q
      fin_cases q <;> simp [Hands.get, l0, l1, l2, l3, hdeck]
    · refine ⟨s.deck.take 3, (s.deck.drop 3).take 3,
        ((s.deck.drop 3).drop 3).take 2, (((s.deck.drop 3).drop 3).drop 2).take 3,
        ?_, ?_, ?_, ?_, ?_, ?_, ?_, ?_, ?_⟩
      · have e1 := List.take_append_drop 3 s.deck
        have e2 := List.take_append_drop 3 (s.deck.drop 3)
        have e3 := List.take_append_drop 2 ((s.deck.drop 3).drop 3)
        have e4 : (((s.deck.drop 3).drop 3).drop 2).take 3 = (((s.deck.drop 3).drop 3).drop 2) :=
          List.take_of_length_le (by simp [hdeck])
        rw [e4]
        conv_lhs => rw [← e1, ← e2, ← e3]
        simp [List.append_assoc]
      · simp [hdeck]
      · simp [hdeck]
      · simp [hdeck]
      · simp [hdeck]
      · simp [List.append_assoc]
      · simp [List.append_assoc]
      · simp [List.append_assoc]
      · simp [List.append_assoc]
  · -- taker is player 3
    simp only [Hands.set, Hands.get]
    rw [topUp_spec 3 s.hands.h0 s.deck
      (by simp [l0]) (by simp [hdeck])]
    simp only []
    rw [topUp_spec 3 s.hands.h1 (s.deck.drop 3)
      (by simp [l1]) (by simp [hdeck])]
    simp only []
    rw [topUp_spec 3 s.hands.h2 ((s.deck.drop 3).drop 3)
      (by simp [l2]) (by simp [hdeck])]
    simp only []
    rw [topUp_spec 2 (s.hands.h3 ++ [tc]) (((s.deck.drop 3).drop 3).drop 3)
      (by simp [l3]) (by simp [hdeck])]
    simp only []
    refine ⟨?_, ?_, ?_⟩
    · apply List.eq_nil_of_length_eq_zero
      simp [hdeck]
    · intro q
      fin_cases q <;> simp [Hands.get, l0, l1, l2, l3, hdeck]
    · refine ⟨s.deck.take 3, (s.deck.drop 3).take 3,
        ((s.deck.drop 3).drop 3).take 3, (((s.deck.drop 3).drop 3).drop 3).take 2,
        ?_, ?_, ?_, ?_, ?_, ?_, ?_, ?_, ?_⟩
      · have e1 := List.take_append_drop 3 s.deck
        have e2 := List.take_append_drop 3 (s.deck.drop 3)
        have e3 := List.take_append_drop 3 ((s.deck.drop 3).drop 3)
        have e4 : (((s.deck.drop 3).drop 3).drop 3).take 2 = (((s.deck.drop 3).drop 3).drop 3) :=
          List.take_of_length_le (by simp [hdeck])
        rw [e4]
        conv_lhs => rw [← e1, ← e2, ← e3]
        simp [List.append_assoc]
      · simp [hdeck]
      · simp [hdeck]
      · simp [hdeck]
      · simp [hdeck]
      · simp [List.append_assoc]
      · simp [List.append_assoc]
      · simp [List.append_assoc]
      · simp [List.append_assoc]

/-- Closed form of the take branch of `chooseTrump`: with the bidder
speaking and a resolvable trump suit, the result is the second deal
applied to the state with trump recorded, entering PlayingTricks with
the taker to play. -/
theorem chooseTrump_take_eq (shuffle : List Card → List Card)
    (s : GameState) (p : PlayerId) (su : Option Suit) (ts : Suit)
    (hbid : s.biddingPlayer = some p)
    (hok : (s.phase = GamePhase.ChoosingTrumpFirstRound ∧
              s.proposedTrump = some ts) ∨
           (s.phase = GamePhase.ChoosingTrumpSecondRound ∧
              su = some ts ∧ s.proposedTrump ≠ some ts)) :
    chooseTrump shuffle s p (ChooseTrumpPayload.take su) =
      { dealSecondPass
          { s with
            trumpSuit := some ts
            trumpChooser := some p
            biddingPlayer := none
            passesInCurrentRound := 0 } with
        phase := GamePhase.PlayingTricks
        currentPlayer := p
        turnedCard := none
        proposedTrump := none } := by
  rcases hok with ⟨hph, hprop⟩ | ⟨hph, hsu, hne⟩
  · rw [chooseTrump.eq_def, if_neg (by simp [hph]), if_neg (by simp [hbid])]
    simp [hph, hprop]
  · subst hsu
    rw [chooseTrump.eq_def, if_neg (by simp [hph]), if_neg (by simp [hbid])]
    simp [hph, hne]

/-- Claim C3: for every bidding state in which each player holds 5
cards, the turned card is present and the deck holds 11 cards, a
successful take (in either round) yields a defined trumpSuit, four
8-card hands and an empty deck; the deck splits into four segments
consumed in seat order, the taker receiving the turned card plus 2
deck cards and each other player 3 deck cards. -/
theorem claim_C3 (shuffle : List Card → List Card) (s : GameState)
    (p : PlayerId) (su : Option Suit) (tc : Card)
    (hbid : s.biddingPlayer = some p)
    (hok : (s.phase = GamePhase.ChoosingTrumpFirstRound ∧
              s.proposedTrump.isSome) ∨
           (s.phase = GamePhase.ChoosingTrumpSecondRound ∧
              ∃ u, su = some u ∧ s.proposedTrump ≠ some u))
    (hturn : s.turnedCard = some tc)
    (hlens : ∀ q : PlayerId, (s.hands.get q).length = 5)
    (hdeck : s.deck.length = 11) :
    (chooseTrump shuffle s p (ChooseTrumpPayload.take su)).trumpSuit.isSome ∧
    (chooseTrump shuffle s p (ChooseTrumpPayload.take su)).deck = [] ∧
    (∀ q : PlayerId,
      ((chooseTrump shuffle s p
        (ChooseTrumpPayload.take su)).hands.get q).length = 8) ∧
    ∃ g0 g1 g2 g3 : List Card,
      s.deck = g0 ++ g1 ++ g2 ++ g3 ∧
      g0.length = (if (0 : PlayerId) = p then 2 else 3) ∧
      g1.length = (if (1 : PlayerId) = p then 2 else 3) ∧
      g2.length = (if (2 : PlayerId) = p then 2 else 3) ∧
      g3.length = (if (3 : PlayerId) = p then 2 else 3) ∧
      (chooseTrump shuffle s p (ChooseTrumpPayload.take su)).hands.h0 =
        s.hands.h0 ++ (if (0 : PlayerId) = p then [tc] else []) ++ g0 ∧
      (chooseTrump shuffle s p (ChooseTrumpPayload.take su)).hands.h1 =
        s.hands.h1 ++ (if (1 : PlayerId) = p then [tc] else []) ++ g1 ∧
      (chooseTrump shuffle s p (ChooseTrumpPayload.take su)).hands.h2 =
        s.hands.h2 ++ (if (2 : PlayerId) = p then [tc] else []) ++ g2 ∧
      (chooseTrump shuffle s p (ChooseTrumpPayload.take su)).hands.h3 =
        s.hands.h3 ++ (if (3 : PlayerId) = p then [tc] else []) ++ g3 := by
  have hts : ∃ ts : Suit,
      chooseTrump shuffle s p (ChooseTrumpPayload.take su) =
        { dealSecondPass
            { s with
              trumpSuit := some ts
              trumpChooser := some p
              biddingPlayer := none
              passesInCurrentRound := 0 } with
          phase := GamePhase.PlayingTricks
          currentPlayer := p
          turnedCard := none
          proposedTrump := none } := by
    rcases hok with ⟨hph, htcp⟩ | ⟨hph, u, hsu, hne⟩
    · obtain ⟨t, ht⟩ := Option.isSome_iff_exists.mp htcp
      exact ⟨t, chooseTrump_take_eq shuffle s p su t hbid (Or.inl ⟨hph, ht⟩)⟩
    · exact ⟨u, chooseTrump_take_eq shuffle s p su u hbid
        (Or.inr ⟨hph, hsu, hne⟩)⟩
  obtain ⟨ts, hf⟩ := hts
  obtain ⟨hd, hl, g0, g1, g2, g3, hsplit, e0, e1, e2, e3, k0, k1, k2, k3⟩ :=
    dealSecondPass_take
      { s with
        trumpSuit := some ts
        trumpChooser := some p
        biddingPlayer := none
        passesInCurrentRound := 0 } p tc hturn rfl hlens hdeck
  rw [hf]
  exact ⟨rfl, hd, hl, g0, g1, g2, g3, hsplit, e0, e1, e2, e3,
    k0, k1, k2, k3⟩

/-- A concrete first-round bidding state after the first 5-card deal:
hands are consecutive 5-card chunks of the fixed deck, the 21st card
(Q♥) is turned, and the remaining 11 cards stay in the deck. -/
def c3State : GameState :=
  { phase := GamePhase.ChoosingTrumpFirstRound
    dealer := 0
    currentPlayer := 1
    deck := createDeck32.drop 21
    hands := ⟨createDeck32.take 5, (createDeck32.drop 5).take 5,
              (createDeck32.drop 10).take 5, (createDeck32.drop 15).take 5⟩
    turnedCard := some ⟨Suit.hearts, Rank.queen⟩
    proposedTrump := some Suit.hearts
    trumpSuit := none
    trumpChooser := none
    biddingPlayer := some 1
    passesInCurrentRound := 0
    trick := none
    scores := ⟨0, 0⟩ }

/-- Witness for claim C3: player 1 takes in the concrete first-round
state; trump is set, the deck empties and every hand reaches 8 cards. -/
theorem claim_C3_witness :
    c3State.biddingPlayer = some 1 ∧
    c3State.phase = GamePhase.ChoosingTrumpFirstRound ∧
    c3State.proposedTrump.isSome ∧
    c3State.turnedCard = some ⟨Suit.hearts, Rank.queen⟩ ∧
    (∀ q : PlayerId, (c3State.hands.get q).length = 5) ∧
    c3State.deck.length = 11 ∧
    (chooseTrump id c3State 1 (ChooseTrumpPayload.take none)).trumpSuit.isSome ∧
    (chooseTrump id c3State 1 (ChooseTrumpPayload.take none)).deck = [] ∧
    (∀ q : PlayerId,
      ((chooseTrump id c3State 1
        (ChooseTrumpPayload.take none)).hands.get q).length = 8) := by
  have hlens : ∀ q : PlayerId, (c3State.hands.get q).length = 5 := by
    intro q
    fin_cases q <;> rfl
  have h := claim_C3 id c3State 1 none ⟨Suit.hearts, Rank.queen⟩ rfl
    (Or.inl ⟨rfl, rfl⟩) rfl hlens rfl
  exact ⟨rfl, rfl, rfl, rfl, hlens, rfl, h.1, h.2.1, h.2.2.1⟩

/-- Claim C8 evaluated on the code: the message-type switch of the
session adapter does not recognize `announce_belote`; the envelope
falls to the `default` branch answered with the unknown-type error. -/
theorem claim_C8 :
    dispatchMessageType "announce_belote" = Dispatch.unknownType := by
  rfl

/-- A client seated in room TABLE, used for claim C9. -/
def c9Client : ClientInfo :=
  { id := "c1", nickname := "Alice", roomCode := some "TABLE", seat := some 0 }

/-- A full room that already holds an active deal, used for claim C9. -/
def c9Room : Room :=
  { code := "TABLE"
    clients := ["c1", "c2", "c3", "c4"]
    seats := [some "c1", some "c2", some "c3", some "c4"]
    gameState := some c4State }

/-- The room registry of the C9 scenario. -/
def c9Rooms : String → Option Room :=
  fun code => if code = "TABLE" then some c9Room else none

/-- Counterexample to claim C9: the room already has an active deal
state, yet the StartGame command is NOT rejected — it succeeds and
replaces the deal. -/
theorem claim_C9_counterexample :
    c9Room.gameState.isSome ∧
    ∃ r, handleStartGameMessage id c9Client c9Rooms = Except.ok r :=
  ⟨rfl, ⟨_, rfl⟩⟩

/-- Claim C9 as amended: StartGame is rejected (with an error to the
sender, leaving the room untouched) when the client is not in a room,
the room is not found, or the room does not hold exactly 4 connected
clients; an existing active DealState is NOT checked — a successful
StartGame replaces it with a fresh deal dealt by seat 0. -/
theorem claim_C9_amended (shuffle : List Card → List Card)
    (client : ClientInfo) (findRoom : String → Option Room) :
    (client.roomCode = none →
      handleStartGameMessage shuffle client findRoom =
        Except.error "Vous n\x27êtes pas dans une room.") ∧
    (∀ rc, client.roomCode = some rc → findRoom rc = none →
      handleStartGameMessage shuffle client findRoom =
        Except.error "Room introuvable côté serveur.") ∧
    (∀ rc room, client.roomCode = some rc → findRoom rc = some room →
      room.clients.length ≠ 4 →
      handleStartGameMessage shuffle client findRoom =
        Except.error "Il faut 4 joueurs pour lancer la partie.") ∧
    (∀ rc room, client.roomCode = some rc → findRoom rc = some room →
      room.clients.length = 4 →
      handleStartGameMessage shuffle client findRoom =
        Except.ok { room with gameState := some (startNewGame shuffle 0) }) := by
  refine ⟨?_, ?_, ?_, ?_⟩
  · intro hrc
    rw [handleStartGameMessage.eq_def, hrc]
  · intro rc hrc hroom
    rw [handleStartGameMessage.eq_def, hrc]
    simp only [hroom]
  · intro rc room hrc hroom hn
    rw [handleStartGameMessage.eq_def, hrc]
    simp only [hroom]
    rw [if_pos hn]
  · intro rc room hrc hroom h4
    rw [handleStartGameMessage.eq_def, hrc]
    simp only [hroom]
    rw [if_neg (by omega)]

/-- A client not seated in any room, used to witness claim C9. -/
def c9Lobby : ClientInfo :=
  { id := "c5", nickname := "Eve", roomCode := none, seat := none }

/-- Witness for claim C9 as amended: a client outside any room is
rejected with the not-in-a-room error. -/
theorem claim_C9_witness :
    c9Lobby.roomCode = none ∧
    handleStartGameMessage id c9Lobby c9Rooms =
      Except.error "Vous n\x27êtes pas dans une room." :=
  ⟨rfl, (claim_C9_amended id c9Lobby c9Rooms).1 rfl⟩

end BeloteLive
